import Mathlib

/-!
# Request/response correlation protocol: verification of the databao-agent client

A shallow embedding of the asynchronous request/response correlation logic of
the databao-agent visualization client, together with proofs about it.

Embedded source files:
* `client/multimodal-jupiter/src/communication/communication.ts`
  (`initCommunication`, `sendMessage`, `onAcceptMessage`, `generateId`) —
  the channel-based (anywidget) host binding; namespace `Jupiter`.
* `client/multimodal-html/src/communication/communication.ts`
  (`subscribeOnSpecGeneration`) — the event-stream (SSE) host binding;
  namespace `Html`.
* `client/multimodal-html/src/App.tsx` — the display-layer state machine fed
  by the event-stream callbacks; namespace `HtmlApp`.

JavaScript promises are modelled by an explicit settlement state on which
`resolve`/`reject` are no-ops once the promise is settled; the single-threaded
event loop is modelled by running a trace (a list) of events through a step
function; `setTimeout` in the timed model fires exactly at its scheduled time
(zero scheduling jitter).
-/

namespace Jupiter

/-- Settlement state of the `Promise<void>` returned by `sendMessage`.
JS promise semantics: once settled, further `resolve`/`reject` calls
have no effect. -/
inductive PState
| pending
| resolved
| rejected (err : String)
deriving DecidableEq, Repr

/-- `resolve()` on a JS promise: settles only a pending promise. -/
def settleResolve : PState → PState
| .pending => .resolved
| s => s

/-- `reject(new Error(err))` on a JS promise: settles only a pending promise. -/
def settleReject (err : String) : PState → PState
| .pending => .rejected err
| s => s

/-- The wire shape of `MessageResponse` (types.ts): a `type` tag,
the correlation `messageId`, a `success` flag and an `error` string. -/
structure MessageResponse where
  type : String
  messageId : String
  success : Bool
  error : String
deriving DecidableEq, Repr

/-- The `detail` of the `CustomEvent` dispatched by `onAcceptMessage`:
it carries only the `success` flag of the response (`ResponseEvent`). -/
structure ResponseEvent where
  success : Bool
deriving DecidableEq, Repr

/-- The per-request state established by one `sendMessage` call:
the request's generated `messageId`, the promise settlement state,
whether the deadline timer is still armed (`clearTimeout` not yet called and
timer not yet fired), and whether the `once:true` document listener for
`messageId` is still registered. -/
structure SendState where
  msgId : String
  promise : PState
  timerActive : Bool
  listenerActive : Bool
deriving DecidableEq, Repr

/-- The `handler` closure inside `sendMessage`: `clearTimeout(timer)`, then
`resolve()` if `detail?.success`, else `reject(new Error("Failed: Request was
failed"))`.  The carried response error text never reaches this point. -/
def handler (s : SendState) (detail : ResponseEvent) : SendState :=
  let s := { s with timerActive := false }
  if detail.success then { s with promise := settleResolve s.promise }
  else { s with promise := settleReject "Failed: Request was failed" s.promise }

/-- `document.dispatchEvent(new CustomEvent(name, {detail}))` as observed by
this request's `once:true` listener: the listener fires (and is removed)
exactly when it is still registered and the event name equals the request's
`messageId`. -/
def dispatchEvent (s : SendState) (name : String) (detail : ResponseEvent) : SendState :=
  if s.listenerActive = true ∧ name = s.msgId then
    handler { s with listenerActive := false } detail
  else s

/-- The `model.on("msg:custom", ...)` callback composed with `onAcceptMessage`:
messages whose `type` is not `"databao_response"` are ignored; otherwise a
`CustomEvent` named by the response's `messageId`, carrying only `success`,
is dispatched on the document. -/
def onCustom (s : SendState) (msg : MessageResponse) : SendState :=
  if msg.type = "databao_response" then
    dispatchEvent s msg.messageId ⟨msg.success⟩
  else s

/-- Events that can reach one outstanding request after `sendMessage` returned:
its deadline timer firing, or an inbound `msg:custom` message. -/
inductive Ev
| timerFire
| custom (msg : MessageResponse)
deriving DecidableEq, Repr

/-- One event-loop step for a single outstanding request.  A fired timer is
spent (`timerActive := false`) and rejects with the timeout error; note the
code does NOT remove the document listener when the timer fires. -/
def step (s : SendState) : Ev → SendState
| .timerFire =>
  if s.timerActive then
    { s with timerActive := false,
             promise := settleReject "Failed: Timeout exceeded" s.promise }
  else s
| .custom msg => onCustom s msg

/-- Run a trace of events through the step function. -/
def runTrace (s : SendState) (t : List Ev) : SendState :=
  t.foldl step s

/-- The synchronous body of the promise executor inside `sendMessage`,
in source order: build the raw message, `model.send` it, start the deadline
timer, register the document listener. -/
inductive MicroStep
| createRawMessage
| transportSend
| startTimer
| registerListener
deriving DecidableEq, Repr

/-- The executor's statements in the order they appear in the source. -/
def sendMessageMicroSteps : List MicroStep :=
  [.createRawMessage, .transportSend, .startTimer, .registerListener]

/-- Effect of each executor statement on the request state. -/
def execMicro (s : SendState) : MicroStep → SendState
| .startTimer => { s with timerActive := true }
| .registerListener => { s with listenerActive := true }
| _ => s

/-- Request state before the executor ran: promise pending, no timer, no
listener. -/
def preState (id : String) : SendState :=
  { msgId := id, promise := .pending, timerActive := false, listenerActive := false }

/-- Request state after a prefix of the executor's statements. -/
def microRun (id : String) (l : List MicroStep) : SendState :=
  l.foldl execMicro (preState id)

/-- Request state once `sendMessage`'s executor has completed. -/
def initState (id : String) : SendState :=
  microRun id sendMessageMicroSteps

/-- Request state after `model.send` and `setTimeout` but before
`document.addEventListener` ran. -/
def preListenerState (id : String) : SendState :=
  microRun id (sendMessageMicroSteps.take 3)

/-- A request is settled by an event iff it is a timer firing or an inbound
message with the response type and this request's correlation id. -/
def criticalFor (id : String) : Ev → Prop
| .timerFire => True
| .custom m => m.type = "databao_response" ∧ m.messageId = id

instance (id : String) (e : Ev) : Decidable (criticalFor id e) := by
  cases e with
  | timerFire => exact .isTrue trivial
  | custom m => exact instDecidableAnd

/-- Liveness invariant of an outstanding request: while the promise is
pending, both the deadline timer and the response listener are armed. -/
def live (s : SendState) : Prop :=
  s.promise = .pending → (s.timerActive = true ∧ s.listenerActive = true)

/-- The jupiter client as a whole, with two overlapping `sendMessage` calls
for the same modality (the superseded `first` and the currently active
`second`) and the host-pushed anywidget model state the display layer reads
(`spec_status` etc. via `useModelState`); the React client never writes it
from a response, only the host pushes it. -/
structure World where
  first : SendState
  second : SendState
  modality : String
deriving DecidableEq, Repr

/-- World-level events: one inbound `msg:custom` message (dispatched on the
shared document, hence visible to both requests' listeners), either request's
deadline timer firing, or a host push of new modality status. -/
inductive WEv
| inbound (msg : MessageResponse)
| firstTimerFire
| secondTimerFire
| hostSet (v : String)
deriving DecidableEq, Repr

/-- One event-loop step of the whole client. -/
def wstep (w : World) : WEv → World
| .inbound msg =>
  { w with first := step w.first (.custom msg), second := step w.second (.custom msg) }
| .firstTimerFire => { w with first := step w.first .timerFire }
| .secondTimerFire => { w with second := step w.second .timerFire }
| .hostSet v => { w with modality := v }

/-- Run a trace of world events. -/
def wrun (w : World) (t : List WEv) : World :=
  t.foldl wstep w

end Jupiter

namespace Html

/-- Modelled from the spec: the `EVENTS` constant object (`events.ts`) is not
among the provided sources; only `EVENTS.GENERATE_SPEC`, the event name of the
spec-generation stream, is referenced.  Its concrete label is irrelevant to
every property below — only equality/inequality of an inbound `type` with it
matters. -/
def EVENTS_GENERATE_SPEC : String := "generate_spec"

/-- The `data` field of a decoded stream message: absent (`undefined`), or a
raw string together with the outcome of `JSON.parse` on it (`none` when that
inner parse would throw).  `JSON.parse` is deterministic, so carrying its
outcome alongside the raw string is a faithful rendering of an opaque parser;
the parsed value itself is kept opaque. -/
inductive Data
| absent
| str (raw : String) (parsed : Option String)
deriving DecidableEq, Repr

/-- A decoded stream `Message`: `{type, status, error, data}`. -/
structure Message where
  type : String
  status : String
  error : String
  data : Data
deriving DecidableEq, Repr

/-- A raw inbound SSE event body: either undecodable (so `JSON.parse
(event.data)` throws) or a decoded `Message`. -/
inductive Raw
| malformed
| valid (m : Message)
deriving DecidableEq, Repr

/-- Observable outcomes of the subscription: the `onSuccess` / `onError` /
`onLoading` callbacks, or an exception escaping the `onmessage` handler
uncaught. -/
inductive Call
| success (v : String)
| errorCall (e : String)
| loadingCall
| unhandledException
deriving DecidableEq, Repr

/-- Result of running the `onmessage` handler body on one raw event: whether
`setupTimeout()` ran (re-arming the deadline timer), and the calls/faults it
produced. -/
structure HStep where
  timerReset : Bool
  calls : List Call
deriving DecidableEq, Repr

/-- The `eventSource.onmessage` handler of `subscribeOnSpecGeneration`,
statement by statement: `JSON.parse(event.data)` (throws on malformed input,
before the timer is touched); `setupTimeout()`; drop messages whose `type` is
not `EVENTS.GENERATE_SPEC`; `status === "failed"` → `onError` with the carried
error text; `status === "loading"` → `onLoading?.()`; falsy `data` → `onError`
"no data"; otherwise `onSuccess(JSON.parse(message.data))` (the inner parse
can throw as well). -/
def onmessage (hasOnLoading : Bool) : Raw → HStep
| .malformed => ⟨false, [.unhandledException]⟩
| .valid m =>
  if m.type ≠ EVENTS_GENERATE_SPEC then ⟨true, []⟩
  else if m.status = "failed" then ⟨true, [.errorCall ("Error: " ++ m.error)]⟩
  else if m.status = "loading" then
    ⟨true, if hasOnLoading then [.loadingCall] else []⟩
  else
    match m.data with
    | .absent => ⟨true, [.errorCall "Error: no data received"]⟩
    | .str raw parsed =>
      if raw = "" then ⟨true, [.errorCall "Error: no data received"]⟩
      else
        match parsed with
        | none => ⟨true, [.unhandledException]⟩
        | some v => ⟨true, [.success v]⟩

/-- State of one subscription: the absolute time at which the currently armed
deadline timer will fire, whether the `EventSource` has been closed, and the
time-stamped log of observable calls so far. -/
structure StreamState where
  deadline : Nat
  closed : Bool
  log : List (Nat × Call)
deriving DecidableEq, Repr

/-- State at subscription time 0: `setupTimeout()` has armed the timer to
fire at `timeout`. -/
def initStream (timeout : Nat) : StreamState :=
  { deadline := timeout, closed := false, log := [] }

/-- Deliver one raw event at absolute time `t`.  If the deadline elapsed
strictly before `t`, the timer fired first: `onError(Timeout)` and
`eventSource.close()`, after which nothing is delivered.  Otherwise the
`onmessage` handler runs; when it called `setupTimeout()` the deadline is
re-armed to `t + timeout`. -/
def processMsg (timeout : Nat) (hasOnLoading : Bool) (s : StreamState)
    (tm : Nat × Raw) : StreamState :=
  if s.closed = true then s
  else if s.deadline < tm.1 then
    { s with closed := true,
             log := s.log ++ [(s.deadline, .errorCall "Error: Timeout exceeded")] }
  else
    let r := onmessage hasOnLoading tm.2
    { s with deadline := if r.timerReset then tm.1 + timeout else s.deadline,
             log := s.log ++ r.calls.map (fun c => (tm.1, c)) }

/-- After the last inbound event, the still-armed timer eventually fires
(every parsed message re-arms it, and nothing else ever clears it while the
connection is open): `onError(Timeout)` and close. -/
def finishRun (s : StreamState) : StreamState :=
  if s.closed = true then s
  else
    { s with closed := true,
             log := s.log ++ [(s.deadline, .errorCall "Error: Timeout exceeded")] }

/-- A whole subscription lifetime: subscribe at time 0 with deadline
`timeout`, deliver the time-stamped raw events in order, then let the final
timer fire. -/
def subscribeRun (timeout : Nat) (hasOnLoading : Bool)
    (msgs : List (Nat × Raw)) : StreamState :=
  finishRun (msgs.foldl (processMsg timeout hasOnLoading) (initStream timeout))

/-- The default `timeout` parameter of `subscribeOnSpecGeneration` (and of the
jupiter `sendMessage`): 30 000 ms. -/
def defaultTimeoutMs : Nat := 30000

end Html

namespace HtmlApp

/-- The `ConnectionStatus` union of the multimodal-html `App`:
`"initial" | "loading" | "failed" | "loaded"` (the spec's `ready` is the
source's `loaded`). -/
inductive ConnectionStatus
| initial
| loading
| failed
| loaded
deriving DecidableEq, Repr

/-- The App's per-chart modality state: the `spec` value and its status. -/
structure AppState where
  spec : Option String
  specStatus : ConnectionStatus
deriving DecidableEq, Repr

/-- State right after the mount effect ran `setSpecStatus("loading")` and
subscribed; `spec` starts as `null`. -/
def mountState : AppState := ⟨none, .loading⟩

/-- How the App consumes one subscription callback: `onSuccess` stores the
value and sets `loaded`; `onError` sets `failed` (the error text goes only to
`console.error`; `spec` is NOT cleared); `onLoading` is not passed by the App,
and an exception escaping the handler changes no React state. -/
def applyCall (s : AppState) : Html.Call → AppState
| .success v => { spec := some v, specStatus := .loaded }
| .errorCall _ => { s with specStatus := .failed }
| .loadingCall => s
| .unhandledException => s

/-- Fold a sequence of callbacks into the App state. -/
def appFold (s : AppState) (calls : List Html.Call) : AppState :=
  calls.foldl applyCall s

/-- The App state after a whole subscription run over the given raw events. -/
def appRun (timeout : Nat) (msgs : List (Nat × Html.Raw)) : AppState :=
  appFold mountState ((Html.subscribeRun timeout false msgs).log.map Prod.snd)

/-- Callbacks that settle the request (terminal outcomes): a success or an
error; loading notifications and escaped exceptions are not terminal. -/
def isTerminal : Html.Call → Bool
| .success _ => true
| .errorCall _ => true
| _ => false

end HtmlApp

namespace Gen

/-- The ambient environment `generateId` reads: whether
`typeof crypto !== "undefined" && "randomUUID" in crypto`, and the streams of
values successive calls to `crypto.randomUUID()`, `Date.now()` and
`Math.random().toString(36).slice(2, 11)` would produce (the `k`-th call of a
session reads index `k`). -/
structure IdEnv where
  cryptoAvailable : Bool
  uuid : Nat → String
  nowMs : Nat → Nat
  rand : Nat → String

/-- `generateId` of the jupiter communication module: the `crypto.randomUUID`
branch, or the fallback id built from the current time and a random base-36
suffix. -/
def generateId (env : IdEnv) (k : Nat) : String :=
  if env.cryptoAvailable = true then env.uuid k
  else "id-" ++ toString (env.nowMs k) ++ "-" ++ env.rand k

/-- A concrete environment without `crypto.randomUUID` in which two
consecutive calls fall in the same millisecond and draw the same random
suffix. -/
def collidingEnv : IdEnv :=
  { cryptoAvailable := false
    uuid := fun _ => ""
    nowMs := fun _ => 0
    rand := fun _ => "abcdefghi" }

/-- A concrete fallback-branch environment whose clock advances every call
and whose random suffix has a fixed length. -/
def distinctDrawEnv : IdEnv :=
  { cryptoAvailable := false
    uuid := fun _ => ""
    nowMs := fun k => k
    rand := fun _ => "abcdefghi" }

end Gen

namespace Jupiter

theorem settleResolve_of_ne_pending {p : PState} (h : p ≠ .pending) :
    settleResolve p = p := by
  cases p with
  | pending => exact absurd rfl h
  | resolved => rfl
  | rejected e => rfl

theorem settleReject_of_ne_pending (err : String) {p : PState} (h : p ≠ .pending) :
    settleReject err p = p := by
  cases p with
  | pending => exact absurd rfl h
  | resolved => rfl
  | rejected e => rfl

theorem handler_promise_of_settled (s : SendState) (d : ResponseEvent)
    (h : s.promise ≠ .pending) : (handler s d).promise = s.promise := by
  unfold handler
  by_cases hd : d.success = true
  · simp [hd, settleResolve_of_ne_pending h]
  · simp [hd, settleReject_of_ne_pending _ h]

theorem step_promise_of_settled (s : SendState) (e : Ev)
    (h : s.promise ≠ .pending) : (step s e).promise = s.promise := by
  cases e with
  | timerFire =>
    unfold step
    by_cases ht : s.timerActive = true
    · simp [ht, settleReject_of_ne_pending _ h]
    · simp [ht]
  | custom msg =>
    unfold step onCustom dispatchEvent
    by_cases h1 : msg.type = "databao_response"
    · by_cases h2 : s.listenerActive = true ∧ msg.messageId = s.msgId
      · have := handler_promise_of_settled { s with listenerActive := false } ⟨msg.success⟩ h
        simp [h1, h2, this]
      · simp [h1, h2]
    · simp [h1]

theorem step_msgId (s : SendState) (e : Ev) : (step s e).msgId = s.msgId := by
  cases e with
  | timerFire =>
    unfold step
    by_cases ht : s.timerActive = true <;> simp [ht]
  | custom msg =>
    unfold step onCustom dispatchEvent handler
    by_cases h1 : msg.type = "databao_response"
    · by_cases h2 : s.listenerActive = true ∧ msg.messageId = s.msgId
      · by_cases hs : msg.success = true <;> simp [h1, h2, hs]
      · simp [h1, h2]
    · simp [h1]

theorem runTrace_promise_of_settled (s : SendState) (t : List Ev)
    (h : s.promise ≠ .pending) : (runTrace s t).promise = s.promise := by
  induction t generalizing s with
  | nil => rfl
  | cons e rest ih =>
    have h1 := step_promise_of_settled s e h
    have h2 : (step s e).promise ≠ .pending := by rw [h1]; exact h
    show (runTrace (step s e) rest).promise = s.promise
    rw [ih (step s e) h2, h1]

theorem step_live (s : SendState) (e : Ev) (h : live s) : live (step s e) := by
  intro hp
  by_cases hpre : s.promise = .pending
  · obtain ⟨ht, hl⟩ := h hpre
    cases e with
    | timerFire =>
      unfold step at hp
      rw [ht] at hp
      simp [hpre, settleReject] at hp
    | custom msg =>
      unfold step onCustom dispatchEvent handler at hp
      by_cases h1 : msg.type = "databao_response"
      · by_cases h2 : s.listenerActive = true ∧ msg.messageId = s.msgId
        · by_cases hs : msg.success = true <;>
            simp [h1, h2, hs, hpre, settleResolve, settleReject] at hp
        · unfold step onCustom dispatchEvent handler
          simp [h1, h2]
          exact ⟨ht, hl⟩
      · unfold step onCustom
        simp [h1]
        exact ⟨ht, hl⟩
  · rw [step_promise_of_settled s e hpre] at hp
    exact absurd hp hpre

theorem step_critical_settles (s : SendState) (e : Ev) (h : live s)
    (hc : criticalFor s.msgId e) : (step s e).promise ≠ .pending := by
  by_cases hpre : s.promise = .pending
  · obtain ⟨ht, hl⟩ := h hpre
    cases e with
    | timerFire =>
      unfold step
      rw [ht]
      simp [hpre, settleReject]
    | custom msg =>
      obtain ⟨h1, h2⟩ := hc
      unfold step onCustom dispatchEvent handler
      by_cases hs : msg.success = true <;>
        simp [h1, h2, hl, hs, hpre, settleResolve, settleReject]
  · rw [step_promise_of_settled s e hpre]
    exact hpre

theorem runTrace_critical (s : SendState) (t : List Ev) (h : live s)
    (hc : ∃ e ∈ t, criticalFor s.msgId e) : (runTrace s t).promise ≠ .pending := by
  induction t generalizing s with
  | nil => exact absurd hc (by simp)
  | cons e rest ih =>
    show (runTrace (step s e) rest).promise ≠ .pending
    by_cases hce : criticalFor s.msgId e
    · have h1 := step_critical_settles s e h hce
      rw [runTrace_promise_of_settled (step s e) rest h1]
      exact h1
    · obtain ⟨e', he', hc'⟩ := hc
      rcases List.mem_cons.mp he' with rfl | hrest
      · exact absurd hc' hce
      · apply ih (step s e) (step_live s e h)
        exact ⟨e', hrest, by rw [step_msgId]; exact hc'⟩

theorem initState_eq (id : String) : initState id = ⟨id, .pending, true, true⟩ := rfl

theorem runTrace_append (s : SendState) (t u : List Ev) :
    runTrace s (t ++ u) = runTrace (runTrace s t) u := by
  simp [runTrace, List.foldl_append]

theorem onCustom_of_id_ne (s : SendState) (msg : MessageResponse)
    (h : msg.messageId ≠ s.msgId) : onCustom s msg = s := by
  unfold onCustom dispatchEvent
  by_cases h1 : msg.type = "databao_response" <;> simp [h1, h]

theorem wstep_modality (w : World) (e : WEv) (h : ∀ v, e ≠ .hostSet v) :
    (wstep w e).modality = w.modality := by
  cases e with
  | inbound msg => rfl
  | firstTimerFire => rfl
  | secondTimerFire => rfl
  | hostSet v => exact absurd rfl (h v)

theorem wrun_modality_of_no_hostSet (w : World) (t : List WEv)
    (hno : ∀ v, WEv.hostSet v ∉ t) : (wrun w t).modality = w.modality := by
  induction t generalizing w with
  | nil => rfl
  | cons e rest ih =>
    show (wrun (wstep w e) rest).modality = w.modality
    have he : ∀ v, e ≠ WEv.hostSet v := by
      intro v hv
      exact hno v (by rw [hv]; exact List.mem_cons_self _ _)
    rw [ih (wstep w e) (fun v hv => hno v (List.mem_cons_of_mem _ hv)),
      wstep_modality w e he]

/-- C1: every `sendMessage` promise is settled at most once — once its
settlement state leaves `pending` it never changes again, whatever further
events (late responses, spurious timer checks) the trace appends — and it is
never left unsettled once a deadline firing or a matching decoded response
occurs in the trace. -/
theorem router_settles_exactly_once (id : String) (t u : List Ev) :
    ((runTrace (initState id) t).promise ≠ PState.pending →
      (runTrace (initState id) (t ++ u)).promise = (runTrace (initState id) t).promise)
    ∧ ((∃ e ∈ t, criticalFor id e) →
      (runTrace (initState id) t).promise ≠ PState.pending) := by
  constructor
  · intro h
    rw [runTrace_append]
    exact runTrace_promise_of_settled _ u h
  · intro hc
    apply runTrace_critical
    · intro _
      exact ⟨rfl, rfl⟩
    · exact hc

/-- Witness for C1 at a concrete trace: a timeout followed by a late
successful response settles the promise exactly once. -/
theorem router_settles_exactly_once_witness :
    (runTrace (initState "r1")
        ([Ev.timerFire] ++ [Ev.custom ⟨"databao_response", "r1", true, ""⟩])).promise
      = (runTrace (initState "r1") [Ev.timerFire]).promise
    ∧ (runTrace (initState "r1") [Ev.timerFire]).promise ≠ PState.pending := by
  have h := router_settles_exactly_once "r1" [Ev.timerFire]
    [Ev.custom ⟨"databao_response", "r1", true, ""⟩]
  have hc : ∃ e ∈ [Ev.timerFire], criticalFor "r1" e :=
    ⟨Ev.timerFire, by simp, trivial⟩
  exact ⟨h.1 (h.2 hc), h.2 hc⟩

/-- C2, counterexample: when the deadline timer fires, the code rejects the
promise with the Timeout error but does NOT deregister the `once:true`
document listener for the request's id — contrary to the claim that the id is
no longer tracked and "its response listener no longer exists".  A response
arriving afterwards still fires (and only then consumes) the handler. -/
theorem timeout_keeps_listener_registered :
    (runTrace (initState "r1") [Ev.timerFire]).promise
        = PState.rejected "Failed: Timeout exceeded"
    ∧ (runTrace (initState "r1") [Ev.timerFire]).listenerActive = true
    ∧ (step (runTrace (initState "r1") [Ev.timerFire])
          (Ev.custom ⟨"databao_response", "r1", true, ""⟩)).listenerActive = false := by
  decide

/-- C2, amended: if the deadline timer fires first, the promise is rejected
with the Timeout error and stays so under any later events — a late response
for that id still fires the surviving listener, but its `resolve`/`reject` is
a no-op on the settled promise, so it resolves nothing; and no inbound
response message ever mutates the host-pushed modality state. -/
theorem timeout_rejects_and_late_response_noop (id : String) (t : List Ev)
    (w : World) (m : MessageResponse) :
    (runTrace (initState id) (Ev.timerFire :: t)).promise
        = PState.rejected "Failed: Timeout exceeded"
    ∧ (wstep w (WEv.inbound m)).modality = w.modality := by
  constructor
  · show (runTrace (step (initState id) Ev.timerFire) t).promise = _
    have h1 : (step (initState id) Ev.timerFire).promise
        = PState.rejected "Failed: Timeout exceeded" := rfl
    rw [runTrace_promise_of_settled _ t (by rw [h1]; intro h; cases h), h1]
  · rfl

/-- C3, counterexample: a matching response carrying `success:false` and
`error:"boom"` rejects with the fixed text "Failed: Request was failed" —
the carried error text is dropped when `onAcceptMessage` dispatches a
`CustomEvent` whose detail holds only `success` — contrary to the claim that
the request rejects with the error text carried in the response. -/
theorem failed_response_uses_generic_error :
    (runTrace (initState "r1")
        [Ev.custom ⟨"databao_response", "r1", false, "boom"⟩]).promise
      = PState.rejected "Failed: Request was failed"
    ∧ PState.rejected "Failed: Request was failed" ≠ PState.rejected "boom" := by
  decide

/-- C3, amended: a matching response resolves the request iff it carries
`success = true`, and rejects with the generic text "Failed: Request was
failed" iff it carries `success = false`; the outcome is independent of the
error text carried in the response (which is discarded). -/
theorem matching_response_settles_by_success_flag (id err : String) (success : Bool) :
    (runTrace (initState id)
        [Ev.custom ⟨"databao_response", id, success, err⟩]).promise
      = (if success = true then PState.resolved
         else PState.rejected "Failed: Request was failed") := by
  show (onCustom (initState id) ⟨"databao_response", id, success, err⟩).promise = _
  unfold onCustom dispatchEvent handler
  by_cases hs : success = true <;>
    simp [hs, initState_eq, settleResolve, settleReject]

/-- C4: a response event (any resolution, of the superseded or of the active
request) never writes the modality state the display layer reads — the host
model is its single writer, so a late resolution of a superseded request
cannot overwrite a newer loading/ready status; and a response correlated to
the superseded request's id leaves the active request's state untouched. -/
theorem late_resolution_never_writes_modality (w : World) (msg : MessageResponse)
    (t : List WEv) (hno : ∀ v, WEv.hostSet v ∉ t)
    (hneq : msg.messageId ≠ w.second.msgId) :
    (wrun w t).modality = w.modality
    ∧ (wstep w (WEv.inbound msg)).modality = w.modality
    ∧ (wstep w (WEv.inbound msg)).second = w.second := by
  refine ⟨wrun_modality_of_no_hostSet w t hno, rfl, ?_⟩
  show step w.second (Ev.custom msg) = w.second
  exact onCustom_of_id_ne w.second msg hneq

/-- Witness for C4 at a concrete world: a matching success response for the
superseded request changes neither the modality status nor the active
request's state. -/
theorem late_resolution_never_writes_modality_witness :
    (wrun ⟨initState "old", initState "new", "computating"⟩
        [WEv.inbound ⟨"databao_response", "old", true, ""⟩]).modality = "computating"
    ∧ (wstep ⟨initState "old", initState "new", "computating"⟩
        (WEv.inbound ⟨"databao_response", "old", true, ""⟩)).modality = "computating"
    ∧ (wstep ⟨initState "old", initState "new", "computating"⟩
        (WEv.inbound ⟨"databao_response", "old", true, ""⟩)).second = initState "new" :=
  late_resolution_never_writes_modality
    ⟨initState "old", initState "new", "computating"⟩
    ⟨"databao_response", "old", true, ""⟩
    [WEv.inbound ⟨"databao_response", "old", true, ""⟩]
    (by intro v hv; simp at hv) (by decide)

/-- C10: inside `sendMessage`'s promise executor, the transport `model.send`
is the second statement, the deadline `setTimeout` the third, and the
`document.addEventListener` registration the fourth — so the send precedes
both; a response dispatched before the listener registration ran is observed
by no handler (the state is unchanged), and a run in which no matching
response is ever delivered can settle the promise only through the timeout
rejection. -/
theorem send_before_timer_before_listener (id : String) (msg : MessageResponse)
    (t : List Ev) :
    (sendMessageMicroSteps.indexOf MicroStep.transportSend
        < sendMessageMicroSteps.indexOf MicroStep.startTimer
      ∧ sendMessageMicroSteps.indexOf MicroStep.startTimer
        < sendMessageMicroSteps.indexOf MicroStep.registerListener)
    ∧ step (preListenerState id) (Ev.custom msg) = preListenerState id
    ∧ ((∀ m, Ev.custom m ∈ t → ¬(m.type = "databao_response" ∧ m.messageId = id)) →
        (runTrace (initState id) t).promise = PState.pending
        ∨ (runTrace (initState id) t).promise
            = PState.rejected "Failed: Timeout exceeded") := by
  refine ⟨⟨by decide, by decide⟩, ?_, ?_⟩
  · show onCustom (preListenerState id) msg = preListenerState id
    unfold onCustom dispatchEvent
    by_cases h1 : msg.type = "databao_response" <;>
      simp [h1, preListenerState, microRun, sendMessageMicroSteps, execMicro, preState]
  · intro hnone
    have key : ∀ (s : SendState) (l : List Ev), s.msgId = id →
        (∀ m, Ev.custom m ∈ l → ¬(m.type = "databao_response" ∧ m.messageId = id)) →
        (s.promise = PState.pending
          ∨ s.promise = PState.rejected "Failed: Timeout exceeded") →
        ((runTrace s l).promise = PState.pending
          ∨ (runTrace s l).promise = PState.rejected "Failed: Timeout exceeded") := by
      intro s l
      induction l generalizing s with
      | nil => exact fun _ _ h => h
      | cons e rest ih =>
        intro hid hl h
        show (runTrace (step s e) rest).promise = _ ∨ _
        apply ih (step s e) (by rw [step_msgId]; exact hid)
          (fun m hm => hl m (List.mem_cons_of_mem _ hm))
        cases e with
        | timerFire =>
          unfold step
          by_cases ht : s.timerActive = true
          · rcases h with h | h <;> simp [ht, h, settleReject]
          · simp [ht, h]
        | custom m =>
          have hm : ¬(m.type = "databao_response" ∧ m.messageId = id) :=
            hl m (List.mem_cons_self _ _)
          have hstep : step s (Ev.custom m) = s := by
            by_cases h1 : m.type = "databao_response"
            · have h2 : m.messageId ≠ s.msgId := by
                rw [hid]
                intro hEq
                exact hm ⟨h1, hEq⟩
              exact onCustom_of_id_ne s m h2
            · show onCustom s m = s
              unfold onCustom
              simp [h1]
          rw [hstep]
          exact h
    exact key (initState id) t rfl hnone (Or.inl rfl)

/-- Witness for C10 at a concrete run: with no matching response delivered,
the request ends rejected by the timeout. -/
theorem send_before_timer_before_listener_witness :
    (runTrace (initState "r1") [Ev.timerFire]).promise = PState.pending
    ∨ (runTrace (initState "r1") [Ev.timerFire]).promise
        = PState.rejected "Failed: Timeout exceeded" :=
  (send_before_timer_before_listener "r1" ⟨"databao_response", "r1", true, ""⟩
    [Ev.timerFire]).2.2 (by intro m hm; simp at hm)

theorem onCustom_unmatched (s : SendState) (msg : MessageResponse)
    (h : msg.type ≠ "databao_response" ∨ msg.messageId ≠ s.msgId) :
    onCustom s msg = s := by
  rcases h with h | h
  · unfold onCustom
    simp [h]
  · exact onCustom_of_id_ne s msg h

end Jupiter

namespace Html

theorem onmessage_unknown_type (hasOnLoading : Bool) (m : Message)
    (hm : m.type ≠ EVENTS_GENERATE_SPEC) :
    onmessage hasOnLoading (Raw.valid m) = ⟨true, []⟩ := by
  unfold onmessage
  simp [hm]

/-- C5, counterexample: in the event-stream binding with `timeoutMs = 50`,
a single inbound message of an unrelated event type at t = 40 re-arms the
deadline (the handler calls `setupTimeout()` before checking the type), so
with no matching response ever arriving the Timeout rejection is delivered at
t = 90 — strictly later than issuance + T = 50, the upper bound the claim
asserts under this model's zero scheduling jitter. -/
theorem stream_timeout_delayed_by_unrelated_message :
    (subscribeRun 50 false [(40, Raw.valid ⟨"other", "loaded", "", .absent⟩)]).log
      = [(90, Call.errorCall "Error: Timeout exceeded")]
    ∧ (90 : Nat) ≠ 50 := by
  decide

/-- C5, amended: a subscription with `timeoutMs = T` (default 30 000 ms) that
receives only non-matching messages is rejected with the Timeout condition
exactly once, at a time no earlier than `T` after issuance — but, because
every inbound message re-arms the deadline, with no `T + jitter` upper bound
relative to issuance. -/
theorem stream_timeout_fires_once (T : Nat) (hs : Bool)
    (msgs : List (Nat × Raw))
    (hnm : ∀ p ∈ msgs, ∃ m, p.2 = Raw.valid m ∧ m.type ≠ EVENTS_GENERATE_SPEC) :
    ∃ d, T ≤ d ∧ (subscribeRun T hs msgs).log
        = [(d, Call.errorCall "Error: Timeout exceeded")] := by
  have key : ∀ (l : List (Nat × Raw)) (s : StreamState),
      (∀ p ∈ l, ∃ m, p.2 = Raw.valid m ∧ m.type ≠ EVENTS_GENERATE_SPEC) →
      T ≤ s.deadline →
      ((s.closed = false ∧ s.log = []) ∨
        (s.closed = true ∧ ∃ d, T ≤ d ∧
          s.log = [(d, Call.errorCall "Error: Timeout exceeded")])) →
      ∃ d, T ≤ d ∧ (finishRun (l.foldl (processMsg T hs) s)).log
          = [(d, Call.errorCall "Error: Timeout exceeded")] := by
    intro l
    induction l with
    | nil =>
      intro s _ hT hinv
      rcases hinv with ⟨hc, hlog⟩ | ⟨hc, d, hd, hlog⟩
      · exact ⟨s.deadline, hT, by unfold finishRun; simp [hc, hlog]⟩
      · exact ⟨d, hd, by unfold finishRun; simp [hc, hlog]⟩
    | cons p rest ih =>
      intro s hl hT hinv
      have hrest : ∀ q ∈ rest, ∃ m, q.2 = Raw.valid m ∧ m.type ≠ EVENTS_GENERATE_SPEC :=
        fun q hq => hl q (List.mem_cons_of_mem _ hq)
      obtain ⟨m, hm, hmt⟩ := hl p (List.mem_cons_self _ _)
      show ∃ d, _ ∧ (finishRun (rest.foldl (processMsg T hs) (processMsg T hs s p))).log = _
      rcases hinv with ⟨hc, hlog⟩ | ⟨hc, d, hd, hlog⟩
      · by_cases hdl : s.deadline < p.1
        · have hnew : processMsg T hs s p =
              { s with closed := true,
                       log := s.log ++ [(s.deadline, Call.errorCall "Error: Timeout exceeded")] } := by
            unfold processMsg
            simp [hc, hdl]
          rw [hnew]
          exact ih _ hrest (by simpa using hT)
            (Or.inr ⟨rfl, s.deadline, hT, by simp [hlog]⟩)
        · have hnew : processMsg T hs s p = { s with deadline := p.1 + T } := by
            unfold processMsg
            rw [hm]
            simp [hc, hdl, onmessage_unknown_type hs m hmt]
          rw [hnew]
          exact ih _ hrest (by simp) (Or.inl ⟨hc, by simp [hlog]⟩)
      · have hnew : processMsg T hs s p = s := by
          unfold processMsg
          simp [hc]
        rw [hnew]
        exact ih _ hrest hT (Or.inr ⟨hc, d, hd, hlog⟩)
  exact key msgs (initStream T) hnm (le_refl T) (Or.inl ⟨rfl, rfl⟩)

/-- Witness for C5 (amended) at the concrete delayed-timeout run. -/
theorem stream_timeout_fires_once_witness :
    ∃ d, 50 ≤ d ∧ (subscribeRun 50 false
        [(40, Raw.valid ⟨"other", "loaded", "", .absent⟩)]).log
      = [(d, Call.errorCall "Error: Timeout exceeded")] :=
  stream_timeout_fires_once 50 false [(40, Raw.valid ⟨"other", "loaded", "", .absent⟩)]
    (by intro p hp; simp at hp; exact ⟨⟨"other", "loaded", "", .absent⟩, by simp [hp], by decide⟩)

/-- C7, counterexample: an inbound event whose body is not decodable JSON
makes `JSON.parse` throw inside `eventSource.onmessage`, with no surrounding
try/catch — the exception escapes as an unhandled fault instead of the
message being dropped and logged locally. -/
theorem malformed_event_throws_unhandled :
    (10, Call.unhandledException) ∈ (subscribeRun 50 false [(10, Raw.malformed)]).log := by
  decide

/-- C7, amended: an undecodable inbound event makes the handler throw (the
parse error escapes uncaught), invoking no callback and leaving the deadline
timer un-rearmed; a decodable message of an unrecognized event type is
dropped silently — without any logging — invoking no callback (though it does
re-arm the deadline timer). -/
theorem malformed_throws_and_unknown_type_silent (hs : Bool) (m : Message)
    (hm : m.type ≠ EVENTS_GENERATE_SPEC) :
    onmessage hs Raw.malformed = ⟨false, [Call.unhandledException]⟩
    ∧ onmessage hs (Raw.valid m) = ⟨true, []⟩ :=
  ⟨rfl, onmessage_unknown_type hs m hm⟩

/-- Witness for C7 (amended) at a concrete unrecognized-type message. -/
theorem malformed_throws_and_unknown_type_silent_witness :
    onmessage false Raw.malformed = ⟨false, [Call.unhandledException]⟩
    ∧ onmessage false (Raw.valid ⟨"other", "loaded", "", .absent⟩) = ⟨true, []⟩ :=
  malformed_throws_and_unknown_type_silent false ⟨"other", "loaded", "", .absent⟩ (by decide)

/-- C8, counterexample: in the event-stream binding, handling a decodable
message whose event type matches nothing is NOT a frame-preserving no-op: the
deadline timer is cleared and re-armed (here from 50 to 90), contradicting
the claim that deadline timers are left unchanged. -/
theorem unknown_type_resets_stream_deadline :
    (initStream 50).deadline = 50
    ∧ (processMsg 50 false (initStream 50)
        (40, Raw.valid ⟨"other", "loaded", "", .absent⟩)).deadline = 90
    ∧ (90 : Nat) ≠ 50 := by
  decide

/-- C8, amended: an unmatched decodable message invokes no callback and
changes no pending-request, promise or modality state — in the channel
binding the whole client state is literally unchanged — but in the
event-stream binding the deadline timer is re-armed to `t + timeout`, the
log and open/closed status staying untouched. -/
theorem unmatched_message_frame (w : Jupiter.World) (msg : Jupiter.MessageResponse)
    (hmsg : msg.type ≠ "databao_response"
      ∨ (msg.messageId ≠ w.first.msgId ∧ msg.messageId ≠ w.second.msgId))
    (T t0 : Nat) (hs : Bool) (m : Message) (hm : m.type ≠ EVENTS_GENERATE_SPEC)
    (s : StreamState) (hopen : s.closed = false) (ht : t0 ≤ s.deadline) :
    Jupiter.wstep w (Jupiter.WEv.inbound msg) = w
    ∧ processMsg T hs s (t0, Raw.valid m) = { s with deadline := t0 + T } := by
  constructor
  · have h1 : Jupiter.step w.first (Jupiter.Ev.custom msg) = w.first :=
      Jupiter.onCustom_unmatched w.first msg (by tauto)
    have h2 : Jupiter.step w.second (Jupiter.Ev.custom msg) = w.second :=
      Jupiter.onCustom_unmatched w.second msg (by tauto)
    show { w with first := Jupiter.step w.first (Jupiter.Ev.custom msg),
                  second := Jupiter.step w.second (Jupiter.Ev.custom msg) } = w
    rw [h1, h2]
  · unfold processMsg
    rw [show ((t0, Raw.valid m) : Nat × Raw).2 = Raw.valid m from rfl]
    simp [hopen, Nat.not_lt.mpr ht, onmessage_unknown_type hs m hm]

/-- Witness for C8 (amended) at a concrete world and stream state. -/
theorem unmatched_message_frame_witness :
    Jupiter.wstep ⟨Jupiter.initState "a", Jupiter.initState "b", "computating"⟩
        (Jupiter.WEv.inbound ⟨"databao_response", "c", true, ""⟩)
      = ⟨Jupiter.initState "a", Jupiter.initState "b", "computating"⟩
    ∧ processMsg 50 false (initStream 50) (40, Raw.valid ⟨"other", "loaded", "", .absent⟩)
      = { initStream 50 with deadline := 90 } :=
  unmatched_message_frame ⟨Jupiter.initState "a", Jupiter.initState "b", "computating"⟩
    ⟨"databao_response", "c", true, ""⟩ (Or.inr ⟨by decide, by decide⟩)
    50 40 false ⟨"other", "loaded", "", .absent⟩ (by decide)
    (initStream 50) rfl (by decide)

end Html

namespace HtmlApp

theorem applyCall_nonterminal (s : AppState) (c : Html.Call)
    (h : isTerminal c = false) : applyCall s c = s := by
  cases c with
  | success v => simp [isTerminal] at h
  | errorCall e => simp [isTerminal] at h
  | loadingCall => rfl
  | unhandledException => rfl

theorem appFold_of_no_terminal (s : AppState) (calls : List Html.Call)
    (h : calls.filter isTerminal = []) : appFold s calls = s := by
  induction calls generalizing s with
  | nil => rfl
  | cons c rest ih =>
    rw [List.filter_cons] at h
    by_cases hc : isTerminal c = true
    · simp [hc] at h
    · have hc' : isTerminal c = false := by simpa using hc
      rw [hc'] at h
      simp only [Bool.false_eq_true, if_false] at h
      show appFold (applyCall s c) rest = s
      rw [applyCall_nonterminal s c hc']
      exact ih s h

theorem appFold_single_terminal_cases (calls : List Html.Call)
    (h : (calls.filter isTerminal).length ≤ 1) :
    appFold mountState calls = mountState
    ∨ (∃ v, appFold mountState calls = ⟨some v, .loaded⟩ ∧ Html.Call.success v ∈ calls)
    ∨ (∃ e, appFold mountState calls = ⟨none, .failed⟩ ∧ Html.Call.errorCall e ∈ calls) := by
  induction calls with
  | nil => exact Or.inl rfl
  | cons c rest ih =>
    rw [List.filter_cons] at h
    by_cases hc : isTerminal c = true
    · rw [hc] at h
      simp only [if_true] at h
      have hrest : rest.filter isTerminal = [] := by
        have := Nat.le_of_succ_le_succ h
        exact List.length_eq_zero.mp (Nat.le_zero.mp this)
      have hfold : appFold mountState (c :: rest) = appFold (applyCall mountState c) rest := rfl
      cases c with
      | success v =>
        refine Or.inr (Or.inl ⟨v, ?_, List.mem_cons_self _ _⟩)
        rw [hfold]
        have h1 : applyCall mountState (Html.Call.success v) = ⟨some v, .loaded⟩ := rfl
        rw [h1, appFold_of_no_terminal _ rest hrest]
      | errorCall e =>
        refine Or.inr (Or.inr ⟨e, ?_, List.mem_cons_self _ _⟩)
        rw [hfold]
        have h1 : applyCall mountState (Html.Call.errorCall e) = ⟨none, .failed⟩ := rfl
        rw [h1, appFold_of_no_terminal _ rest hrest]
      | loadingCall => simp [isTerminal] at hc
      | unhandledException => simp [isTerminal] at hc
    · have hc' : isTerminal c = false := by simpa using hc
      rw [hc'] at h
      simp only [Bool.false_eq_true, if_false] at h
      have hfold : appFold mountState (c :: rest) = appFold mountState rest := by
        show appFold (applyCall mountState c) rest = appFold mountState rest
        rw [applyCall_nonterminal mountState c hc']
      rw [hfold]
      rcases ih h with h1 | ⟨v, hv, hmem⟩ | ⟨e, he, hmem⟩
      · exact Or.inl h1
      · exact Or.inr (Or.inl ⟨v, hv, List.mem_cons_of_mem _ hmem⟩)
      · exact Or.inr (Or.inr ⟨e, he, List.mem_cons_of_mem _ hmem⟩)

/-- C6, counterexample: a stream run that delivers a successful generation
and then a failure leaves the App in `{spec = some value, specStatus =
failed}` — a reachable state in which the value is set while the status is
not ready, contradicting the claimed invariant (and showing a ready → failed
transition without any new selection: the `onmessage` handler has no
completed-latch, and the ever-re-armed timeout alone already forces one). -/
theorem stale_value_survives_failure :
    appRun 100
      [(10, Html.Raw.valid ⟨Html.EVENTS_GENERATE_SPEC, "loaded", "", .str "x" (some "spec")⟩),
       (20, Html.Raw.valid ⟨Html.EVENTS_GENERATE_SPEC, "failed", "boom", .absent⟩)]
      = ⟨some "spec", ConnectionStatus.failed⟩
    ∧ some "spec" ≠ (none : Option String)
    ∧ ConnectionStatus.failed ≠ ConnectionStatus.loaded := by
  decide

/-- C6, amended: up to (and including) the first terminal callback of a
subscription, the claimed invariant holds — the value is set only in the
ready (`loaded`) state, `loaded` is reached only through a success, `failed`
only through an error, and the status has left `initial` once the mount
effect ran; subsequent stream callbacks can move ready → failed while leaving
the stale value in place, without any new selection. -/
theorem single_terminal_run_invariant (calls : List Html.Call)
    (h : (calls.filter isTerminal).length ≤ 1) :
    (∀ v, (appFold mountState calls).spec = some v →
        (appFold mountState calls).specStatus = ConnectionStatus.loaded)
    ∧ ((appFold mountState calls).specStatus = ConnectionStatus.loaded →
        ∃ v, Html.Call.success v ∈ calls)
    ∧ ((appFold mountState calls).specStatus = ConnectionStatus.failed →
        ∃ e, Html.Call.errorCall e ∈ calls)
    ∧ (appFold mountState calls).specStatus ≠ ConnectionStatus.initial := by
  rcases appFold_single_terminal_cases calls h with h1 | ⟨v, hv, hmem⟩ | ⟨e, he, hmem⟩
  · rw [h1]
    exact ⟨fun v hv => by simp [mountState] at hv, fun hl => by simp [mountState] at hl,
      fun hf => by simp [mountState] at hf, by simp [mountState]⟩
  · rw [hv]
    exact ⟨fun _ _ => rfl, fun _ => ⟨v, hmem⟩, fun hf => by simp at hf, by simp⟩
  · rw [he]
    exact ⟨fun v hv => by simp at hv, fun hl => by simp at hl,
      fun _ => ⟨e, hmem⟩, by simp⟩

/-- Witness for C6 (amended) at a concrete single-success callback run. -/
theorem single_terminal_run_invariant_witness :
    (∀ v, (appFold mountState [Html.Call.success "s"]).spec = some v →
        (appFold mountState [Html.Call.success "s"]).specStatus = ConnectionStatus.loaded)
    ∧ ((appFold mountState [Html.Call.success "s"]).specStatus = ConnectionStatus.loaded →
        ∃ v, Html.Call.success v ∈ [Html.Call.success "s"])
    ∧ ((appFold mountState [Html.Call.success "s"]).specStatus = ConnectionStatus.failed →
        ∃ e, Html.Call.errorCall e ∈ [Html.Call.success "s"])
    ∧ (appFold mountState [Html.Call.success "s"]).specStatus ≠ ConnectionStatus.initial :=
  single_terminal_run_invariant [Html.Call.success "s"] (by decide)

end HtmlApp

namespace Gen

/-- C9, counterexample: `generateId` does not guarantee pairwise-distinct ids
for every sequence of 10⁴ consecutive generations — in the fallback branch,
two consecutive calls within the same `Date.now()` millisecond that draw the
same `Math.random` suffix produce the same id (there is no counter in the
id); uniqueness is only probabilistic. -/
theorem generateId_collides :
    generateId collidingEnv 0 = generateId collidingEnv 1
    ∧ (0 : Nat) ≠ 1 ∧ (0 : Nat) < 10000 ∧ (1 : Nat) < 10000 := by
  exact ⟨rfl, by decide, by decide, by decide⟩

/-- C9, amended: ids from distinct calls are distinct provided the underlying
draws are — in the `crypto.randomUUID` branch whenever the drawn UUIDs
differ, and in the `Date.now`/`Math.random` fallback branch whenever the
rendered-timestamp/random-suffix pairs differ and the suffixes have equal
length (so the two variable-length fields cannot absorb each other). -/
theorem generateId_distinct_under_distinct_draws (env : IdEnv) (i j : Nat)
    (h1 : env.cryptoAvailable = true → env.uuid i ≠ env.uuid j)
    (h2 : env.cryptoAvailable = false →
      (env.rand i).length = (env.rand j).length ∧
      (toString (env.nowMs i), env.rand i) ≠ (toString (env.nowMs j), env.rand j)) :
    generateId env i ≠ generateId env j := by
  intro heq
  unfold generateId at heq
  by_cases hc : env.cryptoAvailable = true
  · rw [if_pos hc, if_pos hc] at heq
    exact h1 hc heq
  · have hcf : env.cryptoAvailable = false := by simpa using hc
    obtain ⟨hlen, hne⟩ := h2 hcf
    rw [if_neg hc, if_neg hc] at heq
    have hd := congrArg String.data heq
    simp only [String.data_append] at hd
    have hlen' : (env.rand i).data.length = (env.rand j).data.length := hlen
    obtain ⟨hmid, hr⟩ := List.append_inj' hd hlen'
    obtain ⟨hpre, -⟩ := List.append_inj' hmid rfl
    have hs : (toString (env.nowMs i)).data = (toString (env.nowMs j)).data :=
      List.append_cancel_left hpre
    apply hne
    rw [String.ext hs, String.ext hr]

/-- Witness for C9 (amended): with an advancing clock and a fixed-length
random suffix, successive fallback ids differ. -/
theorem generateId_distinct_under_distinct_draws_witness :
    generateId distinctDrawEnv 0 ≠ generateId distinctDrawEnv 1 :=
  generateId_distinct_under_distinct_draws distinctDrawEnv 0 1
    (by intro h; simp [distinctDrawEnv] at h)
    (fun _ => ⟨rfl, by decide⟩)

end Gen

